import Mathlib

/-!
Verification of the `anki_card_generator.py` pipeline: a JSON value model with a
parser and serializer standing in for Python's `json.loads` / `json.dumps`, the
response-extraction logic of `generate_cards` (source lines 88-112), the CSV
writer `save_to_csv` (lines 114-131), the prompt builder (lines 28-73) and the
`main` control flow (lines 133-155), each translated as a pure Lean function,
with the process's observable effects (network attempts, printed messages, the
output file) made explicit.
-/

namespace Anki

/-- Curly braces never appear literally in this file; they are built from
their code points. -/
def lbrace : Char := Char.ofNat 123

def rbrace : Char := Char.ofNat 125

def lbS : String := Char.toString lbrace

def rbS : String := Char.toString rbrace

def aposS : String := Char.toString (Char.ofNat 39)

/-- JSON values as Python's `json` module produces them, except that numbers
are modelled as integers only (no claim in scope depends on fractional or
exponent literals) and objects are insertion-ordered key/value lists, with
duplicate keys merged during parsing exactly as Python `dict` does. -/
inductive Json where
  | null : Json
  | bool : Bool → Json
  | num : Int → Json
  | str : String → Json
  | arr : List Json → Json
  | obj : List (String × Json) → Json

mutual

/-- Structural equality test; `Json` nests lists, so no deriving handler
applies and the recursion is spelled out. -/
def jeq : Json → Json → Bool
  | .null, .null => true
  | .bool a, .bool b => a == b
  | .num a, .num b => a == b
  | .str a, .str b => a == b
  | .arr a, .arr b => jeqL a b
  | .obj a, .obj b => jeqM a b
  | _, _ => false

def jeqL : List Json → List Json → Bool
  | [], [] => true
  | x :: xs, y :: ys => jeq x y && jeqL xs ys
  | _, _ => false

def jeqM : List (String × Json) → List (String × Json) → Bool
  | [], [] => true
  | (k, v) :: xs, (k2, v2) :: ys => k == k2 && jeq v v2 && jeqM xs ys
  | _, _ => false

end


/-! ## Serializer (model of `json.dumps` with compact separators) -/

/-- Decimal digits of a natural number, most significant first. -/
def natRender (n : Nat) : List Char :=
  if h : n < 10 then [Char.ofNat (48 + n)]
  else natRender (n / 10) ++ [Char.ofNat (48 + n % 10)]
  decreasing_by exact Nat.div_lt_self (by omega) (by omega)

def renderInt (n : Int) : List Char :=
  if n < 0 then '-' :: natRender (-n).toNat else natRender n.toNat

/-- JSON string escaping: the double quote and the backslash are escaped,
every other character is emitted verbatim (the `ensure_ascii=False` style of
serialization; the parser below accepts exactly this form back). -/
def escChar (c : Char) : List Char :=
  if c = '"' then [ '\\', '"']
  else if c = '\\' then [ '\\', '\\']
  else [c]

def escList : List Char → List Char
  | [] => []
  | c :: cs => escChar c ++ escList cs

mutual

def render : Json → List Char
  | .null => [ 'n', 'u', 'l', 'l']
  | .bool b => cond b [ 't', 'r', 'u', 'e'] [ 'f', 'a', 'l', 's', 'e']
  | .num n => renderInt n
  | .str s => '"' :: escList s.data ++ [ '"']
  | .arr [] => [ '[', ']']
  | .arr (x :: xs) => '[' :: render x ++ renderArrTail xs
  | .obj [] => [lbrace, rbrace]
  | .obj (kv :: kvs) => lbrace :: renderMember kv ++ renderObjTail kvs

def renderArrTail : List Json → List Char
  | [] => [ ']']
  | x :: xs => ',' :: render x ++ renderArrTail xs

def renderMember : String × Json → List Char
  | (k, v) => '"' :: escList k.data ++ '"' :: ':' :: render v

def renderObjTail : List (String × Json) → List Char
  | [] => [rbrace]
  | kv :: kvs => ',' :: renderMember kv ++ renderObjTail kvs

end

/-- Model of `json.dumps` (compact separators, `ensure_ascii=False`). -/
def dumps (v : Json) : String := ⟨render v⟩

/-! ## Parser (model of `json.loads`) -/

def isWs (c : Char) : Bool := c = ' ' || c = '\t' || c = '\n' || c = '\r'

def skipWs : List Char → List Char
  | [] => []
  | c :: r => if isWs c then skipWs r else c :: r

def unescape (c : Char) : Option Char :=
  if c = '"' then some '"'
  else if c = '\\' then some '\\'
  else if c = '/' then some '/'
  else if c = 'n' then some '\n'
  else if c = 't' then some '\t'
  else if c = 'r' then some '\r'
  else if c = 'b' then some (Char.ofNat 8)
  else if c = 'f' then some (Char.ofNat 12)
  else none

def hexVal (c : Char) : Option Nat :=
  if c.isDigit then some (c.toNat - 48)
  else if 'a' ≤ c ∧ c ≤ 'f' then some (c.toNat - 87)
  else if 'A' ≤ c ∧ c ≤ 'F' then some (c.toNat - 55)
  else none

/-- String body parser: reads characters after the opening quote up to the
closing quote, decoding backslash escapes (`\uXXXX` is decoded as a single
basic-plane code point; surrogate pairing is not modelled, no claim uses it). -/
def parseStrAux : List Char → Option (List Char × List Char)
  | [] => none
  | c :: r =>
    if c = '"' then some ([], r)
    else if c = '\\' then
      match r with
      | [] => none
      | e :: r2 =>
        if e = 'u' then
          match r2 with
          | h1 :: h2 :: h3 :: h4 :: r3 =>
            match hexVal h1, hexVal h2, hexVal h3, hexVal h4 with
            | some a, some b, some c2, some d =>
              match parseStrAux r3 with
              | some (cs, rest) =>
                some (Char.ofNat (((a * 16 + b) * 16 + c2) * 16 + d) :: cs, rest)
              | none => none
            | _, _, _, _ => none
          | _ => none
        else
          match unescape e with
          | some u =>
            match parseStrAux r2 with
            | some (cs, rest) => some (u :: cs, rest)
            | none => none
          | none => none
    else
      match parseStrAux r with
      | some (cs, rest) => some (c :: cs, rest)
      | none => none

/-- Digit run accumulator. -/
def digitsAux (acc : Nat) : List Char → Nat × List Char
  | [] => (acc, [])
  | c :: r =>
    if c.isDigit then digitsAux (acc * 10 + (c.toNat - 48)) r
    else (acc, c :: r)

/-- Integer literal parser (an optional minus sign then one or more digits). -/
def parseNum (l : List Char) : Option (Int × List Char) :=
  match l with
  | [] => none
  | c :: r =>
    if c = '-' then
      match r with
      | [] => none
      | d :: _ =>
        if d.isDigit then
          let p := digitsAux 0 r
          some (-(p.1 : Int), p.2)
        else none
    else if c.isDigit then
      let p := digitsAux 0 l
      some ((p.1 : Int), p.2)
    else none

/-- Insert one member into an object under Python `dict` semantics: an
existing key keeps its position and gets the new value, a new key is appended. -/
def insertKV (kvs : List (String × Json)) (k : String) (v : Json) : List (String × Json) :=
  if kvs.any (fun kv => kv.1 == k) then
    kvs.map (fun kv => if kv.1 == k then (k, v) else kv)
  else kvs ++ [(k, v)]

def buildObj (ms : List (String × Json)) : List (String × Json) :=
  ms.foldl (fun acc kv => insertKV acc kv.1 kv.2) []

mutual

def parseVal : Nat → List Char → Option (Json × List Char)
  | 0, _ => none
  | fuel + 1, l =>
    match skipWs l with
    | [] => none
    | c :: r =>
      if c = '"' then
        match parseStrAux r with
        | some (cs, rest) => some (Json.str ⟨cs⟩, rest)
        | none => none
      else if c = '[' then
        match skipWs r with
        | [] => none
        | c2 :: r2 =>
          if c2 = ']' then some (Json.arr [], r2)
          else
            match parseVal fuel (c2 :: r2) with
            | some (v, rest) =>
              match parseArrTail fuel rest with
              | some (vs, rest2) => some (Json.arr (v :: vs), rest2)
              | none => none
            | none => none
      else if c = lbrace then
        match skipWs r with
        | [] => none
        | c2 :: r2 =>
          if c2 = rbrace then some (Json.obj [], r2)
          else
            match parseMember fuel (c2 :: r2) with
            | some (kv, rest) =>
              match parseObjTail fuel rest with
              | some (kvs, rest2) => some (Json.obj (buildObj (kv :: kvs)), rest2)
              | none => none
            | none => none
      else if c = 't' then
        match r with
        | 'r' :: 'u' :: 'e' :: rest => some (Json.bool true, rest)
        | _ => none
      else if c = 'f' then
        match r with
        | 'a' :: 'l' :: 's' :: 'e' :: rest => some (Json.bool false, rest)
        | _ => none
      else if c = 'n' then
        match r with
        | 'u' :: 'l' :: 'l' :: rest => some (Json.null, rest)
        | _ => none
      else if c = '-' || c.isDigit then
        match parseNum (c :: r) with
        | some (n, rest) => some (Json.num n, rest)
        | none => none
      else none

def parseArrTail : Nat → List Char → Option (List Json × List Char)
  | 0, _ => none
  | fuel + 1, l =>
    match skipWs l with
    | [] => none
    | c :: r =>
      if c = ']' then some ([], r)
      else if c = ',' then
        match parseVal fuel r with
        | some (v, rest) =>
          match parseArrTail fuel rest with
          | some (vs, rest2) => some (v :: vs, rest2)
          | none => none
        | none => none
      else none

def parseMember : Nat → List Char → Option ((String × Json) × List Char)
  | 0, _ => none
  | fuel + 1, l =>
    match skipWs l with
    | [] => none
    | c :: r =>
      if c = '"' then
        match parseStrAux r with
        | some (kcs, rest) =>
          match skipWs rest with
          | [] => none
          | c2 :: r2 =>
            if c2 = ':' then
              match parseVal fuel r2 with
              | some (v, rest2) => some ((⟨kcs⟩, v), rest2)
              | none => none
            else none
        | none => none
      else none

def parseObjTail : Nat → List Char → Option (List (String × Json) × List Char)
  | 0, _ => none
  | fuel + 1, l =>
    match skipWs l with
    | [] => none
    | c :: r =>
      if c = rbrace then some ([], r)
      else if c = ',' then
        match parseMember fuel r with
        | some (kv, rest) =>
          match parseObjTail fuel rest with
          | some (kvs, rest2) => some (kv :: kvs, rest2)
          | none => none
        | none => none
      else none

end

/-- Model of `json.loads`: parse one value and require that only whitespace
remains. -/
def json_loads (s : String) : Option Json :=
  match parseVal (s.length + 1) s.data with
  | some (v, rest) => if skipWs rest = [] then some v else none
  | none => none

/-! ## Round trip: the parser reads back what the serializer wrote -/

mutual

/-- Well-formed values: every object, at every depth, has pairwise distinct
keys.  Serializing an object with a repeated key and parsing it back merges
the repetition (as Python does), so the round trip is stated under this
condition. -/
def wfJ : Json → Bool
  | .arr xs => wfL xs
  | .obj kvs => wfM kvs
  | _ => true

def wfL : List Json → Bool
  | [] => true
  | x :: xs => wfJ x && wfL xs

def wfM : List (String × Json) → Bool
  | [] => true
  | (k, v) :: kvs => !(kvs.any (fun kv => kv.1 == k)) && wfJ v && wfM kvs

end

mutual

/-- Fuel needed by `parseVal` to read the serialization of `v`. -/
def sizeJ : Json → Nat
  | .null => 1
  | .bool _ => 1
  | .num _ => 1
  | .str _ => 1
  | .arr [] => 1
  | .arr (x :: xs) => 1 + sizeJ x + sizeL xs
  | .obj [] => 1
  | .obj ((_, v) :: kvs) => 2 + sizeJ v + sizeM kvs

def sizeL : List Json → Nat
  | [] => 1
  | x :: xs => 1 + sizeJ x + sizeL xs

def sizeM : List (String × Json) → Nat
  | [] => 1
  | (_, v) :: kvs => 2 + sizeJ v + sizeM kvs

end

/-- The continuation after a serialized number never begins with a digit. -/
def headOkB : List Char → Bool
  | [] => true
  | c :: _ => !c.isDigit

def tenPow (n : Nat) : Nat :=
  if n < 10 then 10 else tenPow (n / 10) * 10
  decreasing_by exact Nat.div_lt_self (by omega) (by omega)

/-! ## Response extractor (`generate_cards`, source lines 88-112) -/

def hasKeyJ (kvs : List (String × Json)) (k : String) : Bool :=
  kvs.any (fun kv => kv.1 == k)

def dictGetJ (kvs : List (String × Json)) (k : String) : Json :=
  match kvs.find? (fun kv => kv.1 == k) with
  | some kv => kv.2
  | none => Json.null

/-- The check on source lines 101-102: the value is a list, it is non-empty,
its first element is a dict, and that dict has an "expression" key. -/
def looksLikeCards : Json → Bool
  | .arr (x :: _) =>
    match x with
    | .obj m => hasKeyJ m "expression"
    | _ => false
  | _ => false

def unexpectedMsg : String := "Unexpected response format. Attempting to extract cards..."

def couldNotMsg : String := "Error: Could not extract cards from API response"

/-- The `Response structure:` diagnostic of line 106 (the model prints the
compact serialization in place of `json.dumps(..., indent=2)`; only the
presence of a diagnostic matters to the claims). -/
def structureMsg (j : Json) : String :=
  "Response structure: " ++ ((dumps j).take 500) ++ "..."

/-- Body of the `try` block of `generate_cards` after the network reply text
is in hand (lines 90-107): parse, then take the "cards" value of a dict, else
a list as-is, else scan the dict items for a card-looking list. An `error`
value is an exception escaping the block (`json.loads` failing, or `.items()`
on a non-dict), paired with the messages printed before it was raised. -/
def parse_reply (t : String) : Except (String × List String) (Json × List String) :=
  match json_loads t with
  | none => .error ("JSONDecodeError", [])
  | some j =>
    match j with
    | .obj kvs =>
      if hasKeyJ kvs "cards" then .ok (dictGetJ kvs "cards", [])
      else
        match kvs.find? (fun kv => looksLikeCards kv.2) with
        | some kv => .ok (kv.2, [unexpectedMsg])
        | none => .ok (Json.arr [], [unexpectedMsg, couldNotMsg, structureMsg j])
    | .arr xs => .ok (Json.arr xs, [])
    | _ => .error ("AttributeError", [unexpectedMsg])

/-- Observable outcome of one `generate_cards` run: the value the function
returns, everything it printed, and how many network requests it made. -/
structure GenOutcome where
  retval : Json
  prints : List String
  netCalls : Nat

/-- `generate_cards` (lines 77-112) with the one network call modelled as an
oracle: `net` is either the raw reply text or the exception the call raised.
The `except Exception` handler of lines 109-112 converts every exception
raised inside the `try` block into an empty-list return plus diagnostics. -/
def generate_cards (net : Except String String) : GenOutcome :=
  match net with
  | .error e =>
    { retval := Json.arr []
      prints := ["Error generating cards: " ++ e, "Response text: Not available"]
      netCalls := 1 }
  | .ok t =>
    match parse_reply t with
    | .ok (v, ms) => { retval := v, prints := ms, netCalls := 1 }
    | .error (e, ms) =>
      { retval := Json.arr []
        prints := ms ++ ["Error generating cards: " ++ e, "Response text: " ++ t]
        netCalls := 1 }

/-- Extraction of a raw reply text: `generate_cards` with the network call
returning `t`, projected to (returned value, printed messages). -/
def extract_cards (t : String) : Json × List String :=
  ((generate_cards (.ok t)).retval, (generate_cards (.ok t)).prints)

/-! ## CSV writer (`save_to_csv`, source lines 114-131)

The file system is abstracted to the content of the one destination path:
`none` when the file does not exist, `some rows` otherwise.  The CSV text
formatting itself is out of the spec's scope, so a written file is modelled
as the list of its rows, each row the list of its eight column values. -/

def fieldnames : List String :=
  ["expression", "context", "meaning", "literal", "usage", "translation", "notes", "cefr_level"]

/-- One card as `csv.DictWriter` consumes it: an insertion-ordered mapping
from field names to text values. -/
abbrev Card := List (String × String)

def dictGetS (c : Card) (k : String) : String :=
  match c.find? (fun kv => kv.1 == k) with
  | some kv => kv.2
  | none => ""

/-- `DictWriter`'s extra-key check: every key of the row dict must be one of
the configured fieldnames, else `writerow` raises `ValueError`. -/
def keysOk (c : Card) : Bool :=
  c.all (fun kv => fieldnames.contains kv.1)

/-- The row written for one card: the eight fields in the fixed order, a
missing field written as the empty value (`restval`). -/
def cardRow (c : Card) : List String :=
  fieldnames.map (dictGetS c)

/-- `writer.writerows`: rows are written one by one; the first card with a
key outside `fieldnames` raises before its row is written, leaving the rows
already written in the file.  Returns the written rows and whether the loop
completed. -/
def writeRows : List Card → List (List String) × Bool
  | [] => ([], true)
  | c :: cs =>
    if keysOk c then
      let p := writeRows cs
      (cardRow c :: p.1, p.2)
    else ([], false)

structure SaveOutcome where
  file : Option (List (List String))
  prints : List String

/-- `save_to_csv(cards, filename)`: an empty sequence prints and returns
before any file is touched; otherwise `open(filename, 'w')` truncates the
destination (or raises when the path is unwritable, modelled by `writable`),
`writerows` runs with no header row, and the `except` clause reports any
failure without retrying. -/
def save_to_csv (cards : List Card) (filename : String) (writable : Bool)
    (file : Option (List (List String))) : SaveOutcome :=
  if cards.isEmpty then { file := file, prints := ["No cards to save"] }
  else if !writable then
    { file := file, prints := ["Error saving to CSV: could not open " ++ filename] }
  else
    let p := writeRows cards
    if p.2 then
      { file := some p.1
        prints :=
          ["Successfully saved " ++ toString cards.length ++ " cards to " ++ filename] }
    else { file := some p.1, prints := ["Error saving to CSV: ValueError"] }

/-! ## Prompt builder (source lines 28-73) -/

/-- The per-invocation request (source lines 12-20 / parameters of
`generate_cards`). -/
structure CardRequest where
  target_language : String
  native_language : String
  num_cards : Int
  topic : String
  cefr_level : String

/-- The instruction (system role) block of lines 28-51, verbatim; the braces
and the apostrophe of the original text are assembled from their code
points. -/
def system_prompt : String :=
  "\n    You are an expert linguist and language teacher specializing in creating high-quality language learning materials.\n    You have deep knowledge of the Common European Framework of Reference for Languages (CEFR) levels and can accurately\n    create language content appropriate for each level.\n    \n    You will output strictly valid JSON with language learning expressions according to the user"
  ++ aposS
  ++ "s requirements.\n    Your output must be a JSON object with a single key \"cards\" containing an array of card objects.\n    \n    Example JSON output format:\n    "
  ++ lbS
  ++ "\n      \"cards\": [\n        "
  ++ lbS
  ++ "\n            \"expression\": \"Expression in target language\",\n            \"context\": \"When/where this is used\",\n            \"meaning\": \"Translation or meaning\",\n            \"literal\": \"Word-for-word translation if applicable\",\n            \"usage\": \"Example sentence\",\n            \"translation\": \"Translation of example\",\n            \"notes\": \"Cultural context or grammar notes\",\n            \"cefr_level\": \"CEFR level\"\n        "
  ++ rbS
  ++ "\n      ]\n    "
  ++ rbS
  ++ "\n    "

def up0 : String := "\n    Create "

def up1 : String := " useful, everyday expressions in "

def up2 : String := " related to "

def up3 : String := " at CEFR level "

def up4 : String :=
  ".\n    \n    Your output must be a JSON object with a single key \"cards\" containing an array of "

def up5 : String :=
  " card objects.\n    Each object in the array must have these fields:\n    - expression: The expression in "

def up6 : String :=
  "\n    - context: When/where this expression is typically used\n    - meaning: Translation or meaning in "

def up7 : String := "\n    - literal: Word-for-word translation if it"

def up8 : String :=
  "s an idiom (optional)\n    - usage: An example sentence using this expression\n    - translation: Translation of the example sentence in "

def up9 : String :=
  "\n    - notes: Any cultural context, formality level, or grammar notes\n    - cefr_level: The CEFR level of this expression (should match requested level: "

def up10 : String :=
  ")\n    \n    Make sure the expressions are:\n    - Appropriate for CEFR level "

def up11 : String := " learners of "

def up12 : String :=
  "\n    - Commonly used by native speakers\n    - Useful for everyday conversation\n    - Varied in formality levels\n    - Include some idioms and colloquial phrases if appropriate for the level\n    "

/-- The request (user role) f-string of lines 53-73, as the list of its
literal segments and interpolated values, in order. -/
def user_pieces (r : CardRequest) : List String :=
  [up0, toString r.num_cards, up1, r.target_language, up2, r.topic, up3, r.cefr_level,
   up4, toString r.num_cards, up5, r.target_language, up6, r.native_language,
   up7, aposS, up8, r.native_language, up9, r.cefr_level, up10, r.cefr_level,
   up11, r.target_language, up12]

def user_prompt (r : CardRequest) : String := String.join (user_pieces r)

/-- The two text blocks the prompt builder hands to the completion client. -/
def build_prompt (r : CardRequest) : String × String := (system_prompt, user_prompt r)

/-! ## `main` (source lines 133-155) -/

/-- Python truthiness of an optional string: `None` and the empty string are
falsy. -/
def truthyStr : Option String → Bool
  | none => false
  | some s => !s.isEmpty

/-- `args.api_key or os.environ.get('DEEPSEEK_API_KEY')` (line 137): the
first operand if truthy, else the environment lookup's result. -/
def resolve_api_key (argKey envKey : Option String) : Option String :=
  if truthyStr argKey then argKey else envKey

/-- Python truthiness of the value `generate_cards` returned. -/
def pyTruthy : Json → Bool
  | .null => false
  | .bool b => b
  | .num n => decide (n ≠ 0)
  | .str s => !s.isEmpty
  | .arr xs => !xs.isEmpty
  | .obj kvs => !kvs.isEmpty

def jstr : Json → String
  | .str s => s
  | v => dumps v

/-- Coercion of the extracted value to the rows `save_to_csv` consumes.  The
source passes the value through untyped; the claims settled on `main_model`
(credential gating, request counting) do not inspect the written content, so
non-card shapes are coerced coarsely here. -/
def jsonToCards : Json → List Card
  | .arr xs =>
    xs.map fun x =>
      match x with
      | .obj kvs => kvs.map (fun kv => (kv.1, jstr kv.2))
      | _ => []
  | _ => []

/-- Observable outcome of one process run. -/
structure MainOutcome where
  netCalls : Nat
  file : Option (List (List String))
  prints : List String

def apiKeyErrMsg : String :=
  "Error: API key is required. Please provide it via --api-key or set the DEEPSEEK_API_KEY environment variable."

/-- `main` (lines 133-155): resolve the credential, bail out before any
network call when it is missing, otherwise run `generate_cards` once and, if
the result is truthy, `save_to_csv`. -/
def main_model (argKey envKey : Option String) (net : Except String String)
    (writable : Bool) (file : Option (List (List String))) (outName : String) :
    MainOutcome :=
  if !truthyStr (resolve_api_key argKey envKey) then
    { netCalls := 0, file := file, prints := [apiKeyErrMsg] }
  else
    let g := generate_cards net
    if pyTruthy g.retval then
      let s := save_to_csv (jsonToCards g.retval) outName writable file
      { netCalls := g.netCalls, file := s.file
        prints := g.prints ++ s.prints ++ ["Example card: ..."] }
    else { netCalls := g.netCalls, file := file, prints := g.prints }

/-! ## Concrete values and shorthands used by the claims -/

/-- A card as a JSON object with string-valued fields. -/
def strObj (c : Card) : Json := Json.obj (c.map fun kv => (kv.1, Json.str kv.2))

/-- A card sequence as the JSON array of its card objects. -/
def cardsJson (cs : List Card) : Json := Json.arr (cs.map strObj)

/-- The tolerance-example reply of the spec:
`Sure! [ {"expression":"x","context":"y"} ] Hope that helps.` -/
def c1Reply : String :=
  "Sure! [ " ++ lbS ++ "\"expression\":\"x\",\"context\":\"y\"" ++ rbS ++ " ] Hope that helps."

/-- `pat` occurs verbatim (as a contiguous substring) in `s`. -/
def occursIn (pat s : String) : Prop := List.IsInfix pat.data s.data

instance (pat s : String) : Decidable (occursIn pat s) := by
  unfold occursIn
  infer_instance

/-- A sample request: count 3, French from English, topic "ordering coffee",
level A2. -/
def req0 : CardRequest :=
  { target_language := "French", native_language := "English", num_cards := 3
    topic := "ordering coffee", cefr_level := "A2" }

/-- Boolean substring scan; its recursive call sits in tail position of `||`,
which keeps its evaluation shallow enough to run inside `decide` on the full
prompt text. -/
def subScan (pat : List Char) : List Char → Bool
  | [] => List.isPrefixOf pat []
  | c :: r => List.isPrefixOf pat (c :: r) || subScan pat r

/-! ## Equality of values is decidable -/

mutual

theorem jeq_iff : ∀ a b : Json, jeq a b = true ↔ a = b
  | .null, .null => by simp [jeq]
  | .bool _, .bool _ => by simp [jeq]
  | .num _, .num _ => by simp [jeq]
  | .str _, .str _ => by simp [jeq]
  | .arr xs, .arr ys => by simp [jeq, jeqL_iff xs ys]
  | .obj xs, .obj ys => by simp [jeq, jeqM_iff xs ys]
  | .null, .bool _ | .null, .num _ | .null, .str _ | .null, .arr _ | .null, .obj _
  | .bool _, .null | .bool _, .num _ | .bool _, .str _ | .bool _, .arr _ | .bool _, .obj _
  | .num _, .null | .num _, .bool _ | .num _, .str _ | .num _, .arr _ | .num _, .obj _
  | .str _, .null | .str _, .bool _ | .str _, .num _ | .str _, .arr _ | .str _, .obj _
  | .arr _, .null | .arr _, .bool _ | .arr _, .num _ | .arr _, .str _ | .arr _, .obj _
  | .obj _, .null | .obj _, .bool _ | .obj _, .num _ | .obj _, .str _ | .obj _, .arr _ => by
    simp [jeq]

theorem jeqL_iff : ∀ xs ys : List Json, jeqL xs ys = true ↔ xs = ys
  | [], [] => by simp [jeqL]
  | x :: xs, y :: ys => by simp [jeqL, jeq_iff x y, jeqL_iff xs ys]
  | [], _ :: _ => by simp [jeqL]
  | _ :: _, [] => by simp [jeqL]

theorem jeqM_iff : ∀ xs ys : List (String × Json), jeqM xs ys = true ↔ xs = ys
  | [], [] => by simp [jeqM]
  | (k, v) :: xs, (k2, v2) :: ys => by
    simp [jeqM, jeq_iff v v2, jeqM_iff xs ys, Prod.ext_iff, and_assoc]
  | [], _ :: _ => by simp [jeqM]
  | _ :: _, [] => by simp [jeqM]

end

instance : DecidableEq Json := fun a b => decidable_of_iff (jeq a b = true) (jeq_iff a b)

theorem skipWs_cons {c : Char} (l : List Char) (h : isWs c = false) :
    skipWs (c :: l) = c :: l := by
  simp [skipWs, h]

theorem digitsAux_stop (acc : Nat) (rest : List Char) (h : headOkB rest = true) :
    digitsAux acc rest = (acc, rest) := by
  cases rest with
  | nil => rfl
  | cons c r =>
    simp only [headOkB, Bool.not_eq_true'] at h
    simp [digitsAux, h]

theorem digitChar_isDigit (m : Nat) (h : m < 10) : (Char.ofNat (48 + m)).isDigit = true := by
  interval_cases m <;> decide

theorem digitChar_toNat (m : Nat) (h : m < 10) : (Char.ofNat (48 + m)).toNat = 48 + m := by
  interval_cases m <;> decide

theorem digitsAux_natRender :
    ∀ n acc rest, digitsAux acc (natRender n ++ rest) = digitsAux (acc * tenPow n + n) rest := by
  intro n
  induction n using Nat.strong_induction_on with
  | _ n ih =>
    intro acc rest
    by_cases h : n < 10
    · rw [natRender, tenPow]
      simp only [h, dite_true, if_true, List.cons_append, List.nil_append]
      rw [digitsAux]
      simp [digitChar_isDigit n h, digitChar_toNat n h]
    · rw [natRender, tenPow]
      simp only [h, dite_false, if_false, List.append_assoc, List.cons_append,
        List.nil_append]
      rw [ih (n / 10) (Nat.div_lt_self (by omega) (by omega)), digitsAux]
      have h10 : n % 10 < 10 := Nat.mod_lt _ (by omega)
      simp only [digitChar_isDigit _ h10, digitChar_toNat _ h10, if_true]
      congr 1
      have := Nat.div_add_mod n 10
      ring_nf
      omega

theorem natRender_head (n : Nat) :
    ∃ c cs, natRender n = c :: cs ∧ c.isDigit = true := by
  induction n using Nat.strong_induction_on with
  | _ n ih =>
    by_cases h : n < 10
    · exact ⟨Char.ofNat (48 + n), [], by rw [natRender]; simp [h], digitChar_isDigit n h⟩
    · obtain ⟨c, cs, heq, hd⟩ := ih (n / 10) (Nat.div_lt_self (by omega) (by omega))
      exact ⟨c, cs ++ [Char.ofNat (48 + n % 10)], by rw [natRender]; simp [h, heq], hd⟩

theorem parseNum_renderInt (n : Int) (rest : List Char) (h : headOkB rest = true) :
    parseNum (renderInt n ++ rest) = some (n, rest) := by
  have hda : ∀ m : Nat, digitsAux 0 (natRender m ++ rest) = (m, rest) := by
    intro m
    rw [digitsAux_natRender, Nat.zero_mul, Nat.zero_add, digitsAux_stop _ _ h]
  unfold renderInt
  by_cases hn : n < 0
  · obtain ⟨c, cs, heq, hd⟩ := natRender_head (-n).toNat
    have hfold : c :: (cs ++ rest) = natRender (-n).toNat ++ rest := by
      rw [heq]; simp
    simp only [hn, if_true, List.cons_append, heq, parseNum]
    simp only [if_pos rfl, hd, if_true]
    rw [hfold, hda]
    have hv : -(((-n).toNat : Int)) = n := by omega
    simp only [hv]
  · obtain ⟨c, cs, heq, hd⟩ := natRender_head n.toNat
    have hcm : ¬ c = '-' := by
      intro hc; rw [hc] at hd; exact absurd hd (by decide)
    have hfold : c :: (cs ++ rest) = natRender n.toNat ++ rest := by
      rw [heq]; simp
    simp only [hn, if_false, heq, List.cons_append, parseNum]
    simp only [if_neg hcm, hd, if_true]
    rw [hfold, hda]
    have hv : ((n.toNat : Int)) = n := by omega
    simp only [hv]

theorem parseStrAux_escList :
    ∀ (cs rest : List Char), parseStrAux (escList cs ++ '"' :: rest) = some (cs, rest) := by
  intro cs
  induction cs with
  | nil =>
    intro rest
    simp only [escList, List.nil_append]
    rw [parseStrAux.eq_def]
    simp
  | cons c cs ih =>
    intro rest
    by_cases h1 : c = '"'
    · subst h1
      have he : escChar '"' = [ '\\', '"'] := by decide
      simp only [escList, he, List.cons_append, List.append_assoc, List.nil_append]
      rw [parseStrAux.eq_def]
      simp [unescape, ih]
    · by_cases h2 : c = '\\'
      · subst h2
        have he : escChar '\\' = [ '\\', '\\'] := by decide
        simp only [escList, he, List.cons_append, List.append_assoc, List.nil_append]
        rw [parseStrAux.eq_def]
        simp [unescape, ih]
      · have he : escChar c = [c] := by simp [escChar, h1, h2]
        simp only [escList, he, List.cons_append, List.nil_append]
        rw [parseStrAux.eq_def]
        simp [h1, h2, ih]

theorem insertKV_fresh (kvs : List (String × Json)) (k : String) (v : Json)
    (h : kvs.any (fun kv => kv.1 == k) = false) : insertKV kvs k v = kvs ++ [(k, v)] := by
  simp [insertKV, h]

theorem foldl_insert_fresh :
    ∀ (ms acc : List (String × Json)), wfM ms = true →
      (∀ kv ∈ ms, acc.any (fun p => p.1 == kv.1) = false) →
      ms.foldl (fun a kv => insertKV a kv.1 kv.2) acc = acc ++ ms := by
  intro ms
  induction ms with
  | nil => intro acc _ _; simp
  | cons kv ms ih =>
    intro acc hwf hfresh
    obtain ⟨k, v⟩ := kv
    rw [wfM] at hwf
    simp only [Bool.and_eq_true, Bool.not_eq_true'] at hwf
    obtain ⟨⟨hfr, _⟩, hms⟩ := hwf
    have hfresh2 : ∀ kv ∈ ms, ((acc ++ [(k, v)]).any fun p => p.1 == kv.1) = false := by
      intro kv2 hmem
      rw [List.any_append]
      have h1 : acc.any (fun p => p.1 == kv2.1) = false := hfresh kv2 (by simp [hmem])
      have h2 : (k == kv2.1) = false := by
        cases hkk : k == kv2.1 with
        | false => rfl
        | true =>
          exfalso
          have hkk2 : (kv2.1 == k) = true := by
            rw [beq_iff_eq] at hkk ⊢; exact hkk.symm
          have : ms.any (fun kv => kv.1 == k) = true :=
            List.any_eq_true.mpr ⟨kv2, hmem, by simpa using hkk2⟩
          rw [this] at hfr; exact Bool.noConfusion hfr
      simp [h1, h2]
    rw [List.foldl_cons, insertKV_fresh _ _ _ (hfresh (k, v) (by simp)),
      ih (acc ++ [(k, v)]) hms hfresh2]
    simp

theorem buildObj_id (ms : List (String × Json)) (h : wfM ms = true) : buildObj ms = ms := by
  unfold buildObj
  rw [foldl_insert_fresh ms [] h (by simp)]
  simp

theorem digit_ne {c b : Char} (hd : c.isDigit = true) (hb : b.isDigit = false) : ¬ c = b := by
  intro h; rw [h, hb] at hd; exact Bool.false_ne_true hd

theorem digit_not_ws {c : Char} (hd : c.isDigit = true) : isWs c = false := by
  by_contra h
  simp only [Bool.not_eq_false, isWs, Bool.or_eq_true, decide_eq_true_eq] at h
  rcases h with ((h | h) | h) | h <;> (subst h; exact absurd hd (by decide))

/-- The first character of any serialized value: never whitespace, never a
closing bracket. -/
theorem render_head (v : Json) :
    ∃ c cs, render v = c :: cs ∧ isWs c = false ∧ ¬ c = ']' := by
  cases v with
  | null => exact ⟨'n', ['u', 'l', 'l'], by simp [render], by decide, by decide⟩
  | bool b =>
    cases b with
    | true => exact ⟨'t', ['r', 'u', 'e'], by simp [render], by decide, by decide⟩
    | false => exact ⟨'f', ['a', 'l', 's', 'e'], by simp [render], by decide, by decide⟩
  | num n =>
    by_cases hn : n < 0
    · exact ⟨'-', natRender (-n).toNat, by simp [render, renderInt, hn], by decide, by decide⟩
    · obtain ⟨c, cs, heq, hd⟩ := natRender_head n.toNat
      exact ⟨c, cs, by simp [render, renderInt, hn, heq], digit_not_ws hd,
        digit_ne hd (by decide)⟩
  | str s => exact ⟨'"', escList s.data ++ [ '"'], by simp [render], by decide, by decide⟩
  | arr xs =>
    cases xs with
    | nil => exact ⟨'[', [']'], by simp [render], by decide, by decide⟩
    | cons x xs =>
      exact ⟨'[', render x ++ renderArrTail xs, by simp [render], by decide, by decide⟩
  | obj kvs =>
    cases kvs with
    | nil => exact ⟨lbrace, [rbrace], by simp [render], by decide, by decide⟩
    | cons kv kvs =>
      exact ⟨lbrace, renderMember kv ++ renderObjTail kvs, by simp [render], by decide,
        by decide⟩

theorem headOkB_arrTail (xs : List Json) (rest : List Char) :
    headOkB (renderArrTail xs ++ rest) = true := by
  cases xs <;> simp [renderArrTail, headOkB]

theorem headOkB_objTail (kvs : List (String × Json)) (rest : List Char) :
    headOkB (renderObjTail kvs ++ rest) = true := by
  cases kvs with
  | nil =>
    simp only [renderObjTail, List.cons_append, List.nil_append, headOkB]
    decide
  | cons kv kvs => simp [renderObjTail, headOkB]

mutual

/-- Parsing the serialization of a well-formed value, followed by any
continuation that does not extend a number literal, succeeds and consumes
exactly the serialization. -/
theorem parseVal_render : ∀ (v : Json) (fuel : Nat) (rest : List Char),
    wfJ v = true → sizeJ v ≤ fuel → headOkB rest = true →
    parseVal fuel (render v ++ rest) = some (v, rest)
  | .null, fuel, rest, _, hsz, hok => by
    cases fuel with
    | zero => simp [sizeJ] at hsz
    | succ f =>
      simp only [render, List.cons_append, List.nil_append]
      rw [parseVal.eq_def]
      simp only []
      rw [skipWs_cons _ (show isWs 'n' = false by decide)]
      simp [lbrace]
  | .bool true, fuel, rest, _, hsz, hok => by
    cases fuel with
    | zero => simp [sizeJ] at hsz
    | succ f =>
      simp only [render, Bool.cond_true, List.cons_append, List.nil_append]
      rw [parseVal.eq_def]
      simp only []
      rw [skipWs_cons _ (show isWs 't' = false by decide)]
      simp [lbrace]
  | .bool false, fuel, rest, _, hsz, hok => by
    cases fuel with
    | zero => simp [sizeJ] at hsz
    | succ f =>
      simp only [render, Bool.cond_false, List.cons_append, List.nil_append]
      rw [parseVal.eq_def]
      simp only []
      rw [skipWs_cons _ (show isWs 'f' = false by decide)]
      simp [lbrace]
  | .num n, fuel, rest, _, hsz, hok => by
    cases fuel with
    | zero => simp [sizeJ] at hsz
    | succ f =>
      have hp := parseNum_renderInt n rest hok
      by_cases hn : n < 0
      · simp only [render, renderInt, if_pos hn, List.cons_append] at hp ⊢
        rw [parseVal.eq_def]
        simp only []
        rw [skipWs_cons _ (show isWs '-' = false by decide)]
        simp [lbrace, hp]
      · obtain ⟨c, cs, heq, hd⟩ := natRender_head n.toNat
        simp only [render, renderInt, if_neg hn, heq, List.cons_append] at hp ⊢
        rw [parseVal.eq_def]
        simp only []
        rw [skipWs_cons _ (digit_not_ws hd)]
        have hne1 : ¬ c = '"' := digit_ne hd (by decide)
        have hne2 : ¬ c = '[' := digit_ne hd (by decide)
        have hne3 : ¬ c = lbrace := digit_ne hd (by decide)
        have hne4 : ¬ c = 't' := digit_ne hd (by decide)
        have hne5 : ¬ c = 'f' := digit_ne hd (by decide)
        have hne6 : ¬ c = 'n' := digit_ne hd (by decide)
        simp [hne1, hne2, hne3, hne4, hne5, hne6, hd, hp]
  | .str s, fuel, rest, _, hsz, hok => by
    cases fuel with
    | zero => simp [sizeJ] at hsz
    | succ f =>
      have hstr := parseStrAux_escList s.data rest
      simp only [render, List.cons_append, List.append_assoc, List.singleton_append]
      rw [parseVal.eq_def]
      simp only []
      rw [skipWs_cons _ (show isWs '"' = false by decide)]
      simp [hstr]
  | .arr [], fuel, rest, _, hsz, hok => by
    cases fuel with
    | zero => simp [sizeJ] at hsz
    | succ f =>
      simp only [render, List.cons_append, List.nil_append]
      rw [parseVal.eq_def]
      simp only []
      rw [skipWs_cons _ (show isWs '[' = false by decide)]
      simp only []
      rw [skipWs_cons _ (show isWs ']' = false by decide)]
      simp [lbrace]
  | .arr (x :: xs), fuel, rest, hwf, hsz, hok => by
    cases fuel with
    | zero => simp [sizeJ] at hsz
    | succ f =>
      rw [wfJ, wfL, Bool.and_eq_true] at hwf
      obtain ⟨hwx, hwxs⟩ := hwf
      simp only [sizeJ, Nat.succ_le_iff] at hsz
      obtain ⟨c, cs, heq, hws, hne⟩ := render_head x
      have ihx := parseVal_render x f (renderArrTail xs ++ rest) hwx (by omega)
        (headOkB_arrTail xs rest)
      have ihxs := parseArrTail_render xs f rest hwxs (by omega) hok
      rw [heq] at ihx
      simp only [List.cons_append] at ihx
      simp only [render, List.cons_append, List.append_assoc, heq]
      rw [parseVal.eq_def]
      simp only []
      rw [skipWs_cons _ (show isWs '[' = false by decide)]
      simp only []
      rw [skipWs_cons _ hws]
      simp [lbrace, hne, ihx, ihxs]
  | .obj [], fuel, rest, _, hsz, hok => by
    cases fuel with
    | zero => simp [sizeJ] at hsz
    | succ f =>
      simp only [render, List.cons_append, List.nil_append]
      rw [parseVal.eq_def]
      simp only []
      rw [skipWs_cons _ (show isWs lbrace = false by decide)]
      simp only []
      rw [skipWs_cons _ (show isWs rbrace = false by decide)]
      simp [lbrace, rbrace]
  | .obj ((k, v) :: kvs), fuel, rest, hwf, hsz, hok => by
    cases fuel with
    | zero => simp [sizeJ] at hsz
    | succ f =>
      rw [wfJ] at hwf
      have hsplit := hwf
      rw [wfM, Bool.and_eq_true, Bool.and_eq_true] at hsplit
      obtain ⟨⟨_, hwv⟩, hwkvs⟩ := hsplit
      simp only [sizeJ, Nat.succ_le_iff] at hsz
      have ihm := parseMember_render (k, v) f (renderObjTail kvs ++ rest) hwv
        (show 1 + sizeJ v ≤ f by omega) (headOkB_objTail kvs rest)
      have iht := parseObjTail_render kvs f rest hwkvs (by omega) hok
      simp only [renderMember, List.cons_append, List.append_assoc] at ihm
      simp only [render, renderMember, List.cons_append, List.append_assoc]
      rw [parseVal.eq_def]
      simp only []
      rw [skipWs_cons _ (show isWs lbrace = false by decide)]
      simp only []
      rw [skipWs_cons _ (show isWs '"' = false by decide)]
      simp [lbrace, rbrace, ihm, iht, buildObj_id ((k, v) :: kvs) hwf]

theorem parseArrTail_render : ∀ (xs : List Json) (fuel : Nat) (rest : List Char),
    wfL xs = true → sizeL xs ≤ fuel → headOkB rest = true →
    parseArrTail fuel (renderArrTail xs ++ rest) = some (xs, rest)
  | [], fuel, rest, _, hsz, hok => by
    cases fuel with
    | zero => simp [sizeL] at hsz
    | succ f =>
      simp only [renderArrTail, List.cons_append, List.nil_append]
      rw [parseArrTail.eq_def]
      simp only []
      rw [skipWs_cons _ (show isWs ']' = false by decide)]
      simp
  | x :: xs, fuel, rest, hwf, hsz, hok => by
    cases fuel with
    | zero => simp [sizeL] at hsz
    | succ f =>
      rw [wfL, Bool.and_eq_true] at hwf
      obtain ⟨hwx, hwxs⟩ := hwf
      simp only [sizeL, Nat.succ_le_iff] at hsz
      have ihx := parseVal_render x f (renderArrTail xs ++ rest) hwx (by omega)
        (headOkB_arrTail xs rest)
      have ihxs := parseArrTail_render xs f rest hwxs (by omega) hok
      simp only [renderArrTail, List.cons_append, List.append_assoc]
      rw [parseArrTail.eq_def]
      simp only []
      rw [skipWs_cons _ (show isWs ',' = false by decide)]
      simp [ihx, ihxs]

theorem parseMember_render : ∀ (kv : String × Json) (fuel : Nat) (rest : List Char),
    wfJ kv.2 = true → 1 + sizeJ kv.2 ≤ fuel → headOkB rest = true →
    parseMember fuel (renderMember kv ++ rest) = some (kv, rest)
  | (k, v), fuel, rest, hwf, hsz, hok => by
    cases fuel with
    | zero => exact absurd hsz (by omega)
    | succ f =>
      have hstr := parseStrAux_escList k.data (':' :: (render v ++ rest))
      have ihv := parseVal_render v f rest hwf (by simp at hsz; omega) hok
      simp only [renderMember, List.cons_append, List.append_assoc]
      rw [parseMember.eq_def]
      simp only []
      rw [skipWs_cons _ (show isWs '"' = false by decide)]
      simp only []
      simp only [List.cons_append] at hstr
      simp only [if_true, hstr]
      rw [skipWs_cons _ (show isWs ':' = false by decide)]
      simp [ihv]

theorem parseObjTail_render : ∀ (kvs : List (String × Json)) (fuel : Nat) (rest : List Char),
    wfM kvs = true → sizeM kvs ≤ fuel → headOkB rest = true →
    parseObjTail fuel (renderObjTail kvs ++ rest) = some (kvs, rest)
  | [], fuel, rest, _, hsz, hok => by
    cases fuel with
    | zero => simp [sizeM] at hsz
    | succ f =>
      simp only [renderObjTail, List.cons_append, List.nil_append]
      rw [parseObjTail.eq_def]
      simp only []
      rw [skipWs_cons _ (show isWs rbrace = false by decide)]
      simp
  | (k, v) :: kvs, fuel, rest, hwf, hsz, hok => by
    cases fuel with
    | zero => simp [sizeM] at hsz
    | succ f =>
      rw [wfM, Bool.and_eq_true, Bool.and_eq_true] at hwf
      obtain ⟨⟨_, hwv⟩, hwkvs⟩ := hwf
      simp only [sizeM, Nat.succ_le_iff] at hsz
      have ihm := parseMember_render (k, v) f (renderObjTail kvs ++ rest) hwv
        (show 1 + sizeJ v ≤ f by omega) (headOkB_objTail kvs rest)
      have iht := parseObjTail_render kvs f rest hwkvs (by omega) hok
      simp only [renderObjTail, List.cons_append, List.append_assoc]
      rw [parseObjTail.eq_def]
      simp only []
      rw [skipWs_cons _ (show isWs ',' = false by decide)]
      simp [rbrace, ihm, iht]

end

theorem renderInt_len (n : Int) : 1 ≤ (renderInt n).length := by
  unfold renderInt
  by_cases hn : n < 0
  · simp [hn]
  · obtain ⟨c, cs, heq, _⟩ := natRender_head n.toNat
    simp [hn, heq]

mutual

theorem sizeJ_le_len : ∀ v : Json, sizeJ v ≤ (render v).length
  | .null => by simp [sizeJ, render]
  | .bool true => by simp [sizeJ, render]
  | .bool false => by simp [sizeJ, render]
  | .num n => by
    have := renderInt_len n
    simp only [sizeJ, render]
    omega
  | .str s => by simp [sizeJ, render]
  | .arr [] => by simp [sizeJ, render]
  | .arr (x :: xs) => by
    have h1 := sizeJ_le_len x
    have h2 := sizeL_le_len xs
    simp only [sizeJ, render, List.length_cons, List.length_append]
    omega
  | .obj [] => by simp [sizeJ, render]
  | .obj ((k, v) :: kvs) => by
    have h1 : 2 + sizeJ v ≤ (renderMember (k, v)).length := sizeMember_le_len (k, v)
    have h2 := sizeM_le_len kvs
    simp only [sizeJ, render, List.length_cons, List.length_append]
    omega

theorem sizeL_le_len : ∀ xs : List Json, sizeL xs ≤ (renderArrTail xs).length
  | [] => by simp [sizeL, renderArrTail]
  | x :: xs => by
    have h1 := sizeJ_le_len x
    have h2 := sizeL_le_len xs
    simp only [sizeL, renderArrTail, List.length_cons, List.length_append]
    omega

theorem sizeMember_le_len : ∀ kv : String × Json, 2 + sizeJ kv.2 ≤ (renderMember kv).length
  | (k, v) => by
    have h1 := sizeJ_le_len v
    simp only [renderMember, List.length_cons, List.length_append]
    omega

theorem sizeM_le_len : ∀ kvs : List (String × Json), sizeM kvs ≤ (renderObjTail kvs).length
  | [] => by simp [sizeM, renderObjTail]
  | (k, v) :: kvs => by
    have h1 : 2 + sizeJ v ≤ (renderMember (k, v)).length := sizeMember_le_len (k, v)
    have h2 := sizeM_le_len kvs
    simp only [sizeM, renderObjTail, List.length_cons, List.length_append]
    omega

end

/-- Round trip: any well-formed value serialized by the model of `json.dumps`
is read back unchanged by the model of `json.loads`. -/
theorem json_loads_dumps (v : Json) (hwf : wfJ v = true) : json_loads (dumps v) = some v := by
  have hr : (dumps v).length = (render v).length := rfl
  have h := parseVal_render v ((dumps v).length + 1) [] hwf
    (by have := sizeJ_le_len v; omega) rfl
  rw [List.append_nil] at h
  unfold json_loads
  have hd : (dumps v).data = render v := rfl
  rw [hd, h]
  simp [skipWs]

/-! ## Supporting lemmas -/

theorem subScan_iff : ∀ (pat l : List Char), subScan pat l = true ↔ List.IsInfix pat l := by
  intro pat l
  induction l with
  | nil => simp [subScan, List.isPrefixOf_iff_prefix]
  | cons c r ih => simp [subScan, List.isPrefixOf_iff_prefix, ih, List.infix_cons_iff]

theorem writeRows_rows : ∀ cs : List Card,
    (writeRows cs).1 = (cs.takeWhile keysOk).map cardRow := by
  intro cs
  induction cs with
  | nil => simp [writeRows]
  | cons c cs ih =>
    by_cases h : keysOk c = true
    · simp [writeRows, h, List.takeWhile_cons, ih]
    · simp only [Bool.not_eq_true] at h
      simp [writeRows, h, List.takeWhile_cons]

theorem writeRows_ok : ∀ cs : List Card, (writeRows cs).2 = cs.all keysOk := by
  intro cs
  induction cs with
  | nil => simp [writeRows]
  | cons c cs ih =>
    by_cases h : keysOk c = true
    · simp [writeRows, h, ih]
    · simp only [Bool.not_eq_true] at h
      simp [writeRows, h]

theorem wfM_strObj : ∀ c : Card, (c.map Prod.fst).Nodup →
    wfM (c.map fun kv => (kv.1, Json.str kv.2)) = true := by
  intro c
  induction c with
  | nil => intro _; rfl
  | cons kv c ih =>
    intro h
    obtain ⟨k, v⟩ := kv
    simp only [List.map_cons, List.nodup_cons] at h
    obtain ⟨hk, hnd⟩ := h
    rw [List.map_cons, wfM, Bool.and_eq_true, Bool.and_eq_true]
    refine ⟨⟨?_, rfl⟩, ih hnd⟩
    rw [Bool.not_eq_true', List.any_eq_false]
    intro p hp
    simp only [List.mem_map] at hp
    obtain ⟨kv2, hkv2, rfl⟩ := hp
    intro he
    rw [beq_iff_eq] at he
    have he2 : kv2.1 = k := he
    exact hk (he2 ▸ List.mem_map_of_mem Prod.fst hkv2)

theorem wfL_strObj : ∀ cs : List Card, (∀ c ∈ cs, (c.map Prod.fst).Nodup) →
    wfL (cs.map strObj) = true := by
  intro cs
  induction cs with
  | nil => intro _; rfl
  | cons c cs ih =>
    intro h
    rw [List.map_cons, wfL, Bool.and_eq_true]
    exact ⟨by rw [strObj, wfJ]; exact wfM_strObj c (h c (by simp)),
      ih (fun c2 hc2 => h c2 (by simp [hc2]))⟩

theorem wfJ_cardsJson (cs : List Card) (h : ∀ c ∈ cs, (c.map Prod.fst).Nodup) :
    wfJ (cardsJson cs) = true := by
  rw [cardsJson, wfJ]
  exact wfL_strObj cs h

theorem wfJ_envelope (cs : List Card) (h : ∀ c ∈ cs, (c.map Prod.fst).Nodup) :
    wfJ (Json.obj [("cards", cardsJson cs)]) = true := by
  rw [wfJ, wfM]
  simp [wfM, wfJ_cardsJson cs h]

theorem foldl_append_data : ∀ (L : List String) (acc : String),
    (L.foldl (fun r s => r ++ s) acc).data = acc.data ++ (L.map String.data).flatten := by
  intro L
  induction L with
  | nil => intro acc; simp
  | cons s L ih =>
    intro acc
    rw [List.foldl_cons, ih]
    simp [String.data_append]

theorem join_data (L : List String) : (String.join L).data = (L.map String.data).flatten := by
  show (L.foldl (fun r s => r ++ s) "").data = (L.map String.data).flatten
  rw [foldl_append_data]
  rfl

theorem occursIn_of_piece {name piece : String} {L : List String}
    (hmem : piece ∈ L) (h : List.IsInfix name.data piece.data) :
    occursIn name (String.join L) := by
  unfold occursIn
  rw [join_data]
  obtain ⟨L1, L2, rfl⟩ := List.append_of_mem hmem
  refine h.trans ?_
  rw [List.map_append, List.map_cons, List.flatten_append, List.flatten_cons,
    ← List.append_assoc]
  exact List.infix_append _ _ _

/-! ## The claims -/

/-- **C1, counterexample.**  The claim asserts a bracket-substring recovery:
for the reply `Sure! [ {"expression":"x","context":"y"} ] Hope that helps.`
extraction would yield the one-element sequence with the embedded object.  The
code has no such fallback (lines 88-112 contain none): the full-text parse
fails on the leading prose, the exception handler catches it, and the
extraction returns the empty sequence, not the one-element sequence. -/
theorem C1_counterexample :
    (extract_cards c1Reply).1 = Json.arr [] ∧
    ¬ (extract_cards c1Reply).1 =
      Json.arr [Json.obj [("expression", Json.str "x"), ("context", Json.str "y")]] := by
  decide

/-- **C1, amended.**  When the full-text JSON parse of the raw reply fails,
the extractor attempts no bracket-substring recovery: it returns the empty
sequence together with diagnostic messages.  In particular the spec's
tolerance example yields the empty sequence. -/
theorem C1_amended_parse_failure_yields_empty (t : String) (h : json_loads t = none) :
    (extract_cards t).1 = Json.arr [] ∧ (extract_cards t).2 ≠ [] := by
  simp [extract_cards, generate_cards, parse_reply, h]

/-- Witness for C1's amended theorem, at the spec's own example reply. -/
theorem C1_amended_witness :
    json_loads c1Reply = none ∧
    (extract_cards c1Reply).1 = Json.arr [] ∧ (extract_cards c1Reply).2 ≠ [] :=
  ⟨by decide, C1_amended_parse_failure_yields_empty c1Reply (by decide)⟩

/-- **C2.**  The extractor never lets an exception escape: whatever exception
the `try` block raises while interpreting the reply text (a parse failure, or
`.items()` on a non-dict), the `except Exception` handler of lines 109-112
turns it into an empty-sequence return plus non-empty diagnostics. -/
theorem C2_extraction_never_raises (t e : String) (ms : List String)
    (h : parse_reply t = .error (e, ms)) :
    (extract_cards t).1 = Json.arr [] ∧
    (extract_cards t).2 =
      ms ++ ["Error generating cards: " ++ e, "Response text: " ++ t] ∧
    (extract_cards t).2 ≠ [] := by
  simp [extract_cards, generate_cards, h]

/-- Witness for C2 at the spec's failure example, a reply with no brackets. -/
theorem C2_witness :
    parse_reply "I cannot help with that." = .error ("JSONDecodeError", []) ∧
    ((extract_cards "I cannot help with that.").1 = Json.arr [] ∧
      (extract_cards "I cannot help with that.").2 =
        [] ++ ["Error generating cards: " ++ "JSONDecodeError",
          "Response text: " ++ "I cannot help with that."] ∧
      (extract_cards "I cannot help with that.").2 ≠ []) :=
  ⟨rfl, C2_extraction_never_raises "I cannot help with that." "JSONDecodeError" [] rfl⟩

/-- **C3.**  Round trip through both envelope shapes: extracting a reply that
is exactly the serialization of `{"cards": cs}` yields `cs` unchanged (order
and fields preserved), and likewise for a reply that is exactly the
serialization of the bare array `cs`.  The hypothesis says each card is a
genuine mapping (its field names are pairwise distinct). -/
theorem C3_roundtrip_extraction (cs : List Card) (h : ∀ c ∈ cs, (c.map Prod.fst).Nodup) :
    (extract_cards (dumps (Json.obj [("cards", cardsJson cs)]))).1 = cardsJson cs ∧
    (extract_cards (dumps (cardsJson cs))).1 = cardsJson cs := by
  constructor
  · have hl := json_loads_dumps _ (wfJ_envelope cs h)
    simp [extract_cards, generate_cards, parse_reply, hl, hasKeyJ, dictGetJ]
  · have hl := json_loads_dumps _ (wfJ_cardsJson cs h)
    simp only [cardsJson] at hl
    simp [extract_cards, generate_cards, parse_reply, hl, cardsJson]

/-- Witness for C3 at a concrete two-card sequence. -/
theorem C3_witness :
    (∀ c ∈ [[("expression", "bonjour"), ("context", "greeting")],
        [("expression", "merci")]], ((c : Card).map Prod.fst).Nodup) ∧
    (extract_cards (dumps (Json.obj [("cards",
        cardsJson [[("expression", "bonjour"), ("context", "greeting")],
          [("expression", "merci")]])]))).1 =
      cardsJson [[("expression", "bonjour"), ("context", "greeting")],
        [("expression", "merci")]] ∧
    (extract_cards (dumps (cardsJson [[("expression", "bonjour"), ("context", "greeting")],
        [("expression", "merci")]]))).1 =
      cardsJson [[("expression", "bonjour"), ("context", "greeting")],
        [("expression", "merci")]] :=
  ⟨by decide, C3_roundtrip_extraction _ (by decide)⟩

set_option maxRecDepth 3000 in
/-- **C4, counterexample.**  The claim requires every field name of the §3
Card schema — "including the optional pronunciation-audio reference URL
field" — to appear verbatim in the request block.  The prompt built by the
code (lines 53-73) names exactly eight fields and mentions no audio field at
all: no substring naming a pronunciation-audio URL can appear, since even the
words "audio" and "pronunciation" are absent from the request block built for
a concrete request. -/
theorem C4_counterexample :
    ¬ occursIn "audio" (user_prompt req0) ∧ ¬ occursIn "pronunciation" (user_prompt req0) := by
  unfold occursIn
  rw [← subScan_iff, ← subScan_iff]
  constructor <;> decide

set_option maxRecDepth 3000 in
/-- **C4, amended.**  Prompt building is deterministic — the two text blocks
are a pure function of the request — and each of the eight field names of the
schema actually used by the code (`expression`, `context`, `meaning`,
`literal`, `usage`, `translation`, `notes`, `cefr_level`) appears verbatim in
the request (user) block; the code's schema has no audio-URL field. -/
theorem C4_amended_prompt_fields (r : CardRequest) :
    build_prompt r = (system_prompt, user_prompt r) ∧
    ∀ name ∈ fieldnames, occursIn name (user_prompt r) := by
  refine ⟨rfl, ?_⟩
  intro name hname
  rw [user_prompt]
  rw [fieldnames] at hname
  fin_cases hname
  · exact occursIn_of_piece (show up5 ∈ user_pieces r by simp [user_pieces])
      ((subScan_iff _ _).mp (by decide))
  · exact occursIn_of_piece (show up6 ∈ user_pieces r by simp [user_pieces])
      ((subScan_iff _ _).mp (by decide))
  · exact occursIn_of_piece (show up6 ∈ user_pieces r by simp [user_pieces])
      ((subScan_iff _ _).mp (by decide))
  · exact occursIn_of_piece (show up7 ∈ user_pieces r by simp [user_pieces])
      ((subScan_iff _ _).mp (by decide))
  · exact occursIn_of_piece (show up8 ∈ user_pieces r by simp [user_pieces])
      ((subScan_iff _ _).mp (by decide))
  · exact occursIn_of_piece (show up8 ∈ user_pieces r by simp [user_pieces])
      ((subScan_iff _ _).mp (by decide))
  · exact occursIn_of_piece (show up9 ∈ user_pieces r by simp [user_pieces])
      ((subScan_iff _ _).mp (by decide))
  · exact occursIn_of_piece (show up9 ∈ user_pieces r by simp [user_pieces])
      ((subScan_iff _ _).mp (by decide))

/-- Witness for C4's amended theorem at the sample request and the first
field name. -/
theorem C4_witness :
    "expression" ∈ fieldnames ∧ occursIn "expression" (user_prompt req0) :=
  ⟨by simp [fieldnames], (C4_amended_prompt_fields req0).2 "expression" (by simp [fieldnames])⟩

/-- **C5, counterexample.**  The claim says a mid-write failure leaves the
destination's prior content unchanged.  But `open(filename, 'w')` truncates
the file before any row is written, so when the second card carries a key
outside the field set (`DictWriter` raises `ValueError` mid-`writerows`), the
prior content `[["OLD"]]` is gone and a partial file holding only the first
card's row remains. -/
theorem C5_counterexample :
    ¬ (save_to_csv [[("expression", "hi")], [("expression", "b"), ("bogus", "z")]]
        "out.csv" true (some [["OLD"]])).file = some [["OLD"]] ∧
    (save_to_csv [[("expression", "hi")], [("expression", "b"), ("bogus", "z")]]
        "out.csv" true (some [["OLD"]])).file =
      some [["hi", "", "", "", "", "", "", ""]] := by
  decide

/-- **C5, amended.**  On a row-level write failure the destination does not
keep its prior content: it is truncated on open and left holding exactly the
rows of the longest prefix of cards whose keys all lie in the field set
(possibly no rows), with the failure reported.  The prior content survives
only when the write never starts: an empty sequence, or a path that cannot
be opened. -/
theorem C5_amended_partial_write (cards : List Card) (name : String)
    (file : Option (List (List String)))
    (hne : cards ≠ []) (hbad : cards.all keysOk = false) :
    (save_to_csv cards name true file).file =
      some ((cards.takeWhile keysOk).map cardRow) ∧
    (save_to_csv cards name true file).prints = ["Error saving to CSV: ValueError"] ∧
    (save_to_csv cards name false file).file = file ∧
    (save_to_csv [] name true file).file = file := by
  have h1 := writeRows_rows cards
  have h2 := writeRows_ok cards
  cases cards with
  | nil => exact absurd rfl hne
  | cons c cs =>
    refine ⟨?_, ?_, ?_, ?_⟩ <;>
      simp [save_to_csv, h1, h2, hbad, writeRows_rows, writeRows_ok]

/-- Witness for C5's amended theorem at the counterexample's input. -/
theorem C5_amended_witness :
    ([[("expression", "hi")], [("expression", "b"), ("bogus", "z")]] : List Card) ≠ [] ∧
    ([[("expression", "hi")], [("expression", "b"), ("bogus", "z")]] : List Card).all
      keysOk = false ∧
    ((save_to_csv [[("expression", "hi")], [("expression", "b"), ("bogus", "z")]]
        "out.csv" true (some [["OLD"]])).file =
      some (([[("expression", "hi")], [("expression", "b"), ("bogus", "z")]].takeWhile
        keysOk).map cardRow) ∧
     (save_to_csv [[("expression", "hi")], [("expression", "b"), ("bogus", "z")]]
        "out.csv" true (some [["OLD"]])).prints = ["Error saving to CSV: ValueError"] ∧
     (save_to_csv [[("expression", "hi")], [("expression", "b"), ("bogus", "z")]]
        "out.csv" false (some [["OLD"]])).file = some [["OLD"]] ∧
     (save_to_csv [] "out.csv" true (some [["OLD"]])).file = some [["OLD"]]) :=
  ⟨by decide, by decide,
    C5_amended_partial_write _ "out.csv" (some [["OLD"]]) (by decide) (by decide)⟩

/-- **C6.**  For a non-empty sequence of genuine cards (keys within the fixed
field set) and a writable path, the writer produces exactly one row per card,
each row being the eight fields in the fixed schema order with absent fields
empty, with no header row, and reports the row count; for the empty sequence
it touches no file (neither creates nor modifies) and reports the
nothing-to-save outcome. -/
theorem C6_csv_write (cards : List Card) (name : String) (writable : Bool)
    (file : Option (List (List String)))
    (hne : cards ≠ []) (hok : cards.all keysOk = true) :
    (save_to_csv cards name true file).file = some (cards.map cardRow) ∧
    (cards.map cardRow).length = cards.length ∧
    (∀ c ∈ cards, cardRow c = fieldnames.map (dictGetS c)) ∧
    (save_to_csv cards name true file).prints =
      ["Successfully saved " ++ toString cards.length ++ " cards to " ++ name] ∧
    (save_to_csv [] name writable file).file = file ∧
    (save_to_csv [] name writable file).prints = ["No cards to save"] := by
  have h1 := writeRows_rows cards
  have h2 := writeRows_ok cards
  have htw : cards.takeWhile keysOk = cards := by
    rw [List.takeWhile_eq_self_iff]
    intro x hx
    exact List.all_eq_true.mp hok x hx
  cases cards with
  | nil => exact absurd rfl hne
  | cons c cs =>
    rw [htw] at h1
    refine ⟨?_, by simp, fun c2 _ => rfl, ?_, ?_, ?_⟩ <;>
      simp [save_to_csv, h1, h2, hok]

/-- Witness for C6 at a concrete two-card sequence with an absent optional
field. -/
theorem C6_witness :
    ([[("expression", "hi"), ("context", "x")], [("expression", "yo")]] : List Card) ≠ [] ∧
    ([[("expression", "hi"), ("context", "x")], [("expression", "yo")]] : List Card).all
      keysOk = true ∧
    ((save_to_csv [[("expression", "hi"), ("context", "x")], [("expression", "yo")]]
        "cards.csv" true none).file =
      some ([[("expression", "hi"), ("context", "x")], [("expression", "yo")]].map cardRow) ∧
     ([[("expression", "hi"), ("context", "x")], [("expression", "yo")]].map
        (cardRow : Card → List String)).length = 2 ∧
     (∀ c ∈ ([[("expression", "hi"), ("context", "x")], [("expression", "yo")]] : List Card),
        cardRow c = fieldnames.map (dictGetS c)) ∧
     (save_to_csv [[("expression", "hi"), ("context", "x")], [("expression", "yo")]]
        "cards.csv" true none).prints =
      ["Successfully saved " ++ toString
        ([[("expression", "hi"), ("context", "x")], [("expression", "yo")]] : List Card).length
        ++ " cards to " ++ "cards.csv"] ∧
     (save_to_csv [] "cards.csv" true none).file = none ∧
     (save_to_csv [] "cards.csv" true none).prints = ["No cards to save"]) :=
  ⟨by decide, by decide,
    C6_csv_write _ "cards.csv" true none (by decide) (by decide)⟩

/-- **C7.**  When no credential is supplied — `--api-key` absent or empty and
the environment variable absent or empty, so the Python `or`-chain is falsy —
`main` reports the missing key and returns before `generate_cards`: no
network call is made and the output file is untouched. -/
theorem C7_missing_credential (argKey envKey : Option String)
    (net : Except String String) (writable : Bool)
    (file : Option (List (List String))) (outName : String)
    (h : truthyStr (resolve_api_key argKey envKey) = false) :
    main_model argKey envKey net writable file outName =
      { netCalls := 0, file := file, prints := [apiKeyErrMsg] } := by
  simp [main_model, h]

/-- Witness for C7: no `--api-key`, and the environment variable set to the
empty string (falsy in Python). -/
theorem C7_witness :
    truthyStr (resolve_api_key none (some "")) = false ∧
    main_model none (some "") (.ok "[1]") true none "out.csv" =
      { netCalls := 0, file := none, prints := [apiKeyErrMsg] } :=
  ⟨rfl, C7_missing_credential none (some "") (.ok "[1]") true none "out.csv" rfl⟩

/-- **C8.**  `generate_cards` performs exactly one network attempt on every
run — whatever the call returns or raises, there is no retry — and a whole
process run performs at most one outbound request (zero when the credential
is missing). -/
theorem C8_single_attempt (net : Except String String) (argKey envKey : Option String)
    (writable : Bool) (file : Option (List (List String))) (outName : String) :
    (generate_cards net).netCalls = 1 ∧
    (main_model argKey envKey net writable file outName).netCalls ≤ 1 := by
  have hg : (generate_cards net).netCalls = 1 := by
    cases net with
    | error e => rfl
    | ok t =>
      cases hp : parse_reply t with
      | ok p =>
        obtain ⟨v, ms⟩ := p
        simp [generate_cards, hp]
      | error p =>
        obtain ⟨e, ms⟩ := p
        simp [generate_cards, hp]
  refine ⟨hg, ?_⟩
  unfold main_model
  cases htr : (!truthyStr (resolve_api_key argKey envKey)) with
  | true => simp
  | false =>
    simp only [Bool.false_eq_true, if_false]
    cases hpt : pyTruthy (generate_cards net).retval <;> simp [hpt, hg]

/-- **C9.**  When the full-text parse yields a mapping with a `"cards"` key,
the extractor returns the value under that key as-is: no check that it is a
list, no check of its first element.  The theorem has no hypothesis at all
about the shape of the value. -/
theorem C9_cards_value_unchecked (t : String) (kvs : List (String × Json))
    (h : json_loads t = some (Json.obj kvs)) (hk : hasKeyJ kvs "cards" = true) :
    (extract_cards t).1 = dictGetJ kvs "cards" := by
  simp [extract_cards, generate_cards, parse_reply, h, hk]

/-- Witness for C9: a reply whose `"cards"` value is the string `"oops"` —
not an array, no `expression` field anywhere — is returned as-is. -/
theorem C9_witness :
    json_loads (lbS ++ "\"cards\": \"oops\"" ++ rbS) =
      some (Json.obj [("cards", Json.str "oops")]) ∧
    hasKeyJ [("cards", Json.str "oops")] "cards" = true ∧
    (extract_cards (lbS ++ "\"cards\": \"oops\"" ++ rbS)).1 = Json.str "oops" :=
  ⟨by decide, rfl,
    (C9_cards_value_unchecked (lbS ++ "\"cards\": \"oops\"" ++ rbS)
      [("cards", Json.str "oops")] (by decide) rfl).trans rfl⟩

/-- **C10.**  When the full-text parse yields a mapping without a `"cards"`
key, the fallback scan returns the value of the first key, in insertion
order, whose value passes the card-shape check (a non-empty list whose first
element is a mapping with an `"expression"` key); empty lists and lists whose
first element lacks the key are skipped, and when no key qualifies the result
is the empty sequence.  The second conjunct pins the shape check down to
exactly that condition. -/
theorem C10_fallback_scan (t : String) (kvs : List (String × Json))
    (h : json_loads t = some (Json.obj kvs)) (hk : hasKeyJ kvs "cards" = false) :
    ((extract_cards t).1 =
      match kvs.find? (fun kv => looksLikeCards kv.2) with
      | some kv => kv.2
      | none => Json.arr []) ∧
    (∀ v : Json, looksLikeCards v = true ↔
      ∃ x xs, v = Json.arr (x :: xs) ∧
        ∃ m, x = Json.obj m ∧ hasKeyJ m "expression" = true) := by
  constructor
  · cases hfind : kvs.find? (fun kv => looksLikeCards kv.2) with
    | none => simp [extract_cards, generate_cards, parse_reply, h, hk, hfind]
    | some kv => simp [extract_cards, generate_cards, parse_reply, h, hk, hfind]
  · intro v
    cases v with
    | arr xs =>
      cases xs with
      | nil => simp [looksLikeCards]
      | cons x xs => cases x <;> simp [looksLikeCards]
    | null => simp [looksLikeCards]
    | bool b => simp [looksLikeCards]
    | num n => simp [looksLikeCards]
    | str s => simp [looksLikeCards]
    | obj kvs2 => simp [looksLikeCards]

/-- Witness for C10: the first key's empty list is skipped, the second key's
qualifying list is returned. -/
theorem C10_witness :
    json_loads (lbS ++ "\"a\": [], \"b\": [" ++ lbS ++ "\"expression\": \"e\"" ++ rbS
        ++ "], \"c\": 1" ++ rbS) =
      some (Json.obj [("a", Json.arr []),
        ("b", Json.arr [Json.obj [("expression", Json.str "e")]]), ("c", Json.num 1)]) ∧
    hasKeyJ [("a", Json.arr []),
      ("b", Json.arr [Json.obj [("expression", Json.str "e")]]), ("c", Json.num 1)]
      "cards" = false ∧
    (extract_cards (lbS ++ "\"a\": [], \"b\": [" ++ lbS ++ "\"expression\": \"e\"" ++ rbS
        ++ "], \"c\": 1" ++ rbS)).1 =
      Json.arr [Json.obj [("expression", Json.str "e")]] :=
  ⟨by decide, rfl, by
    have h := (C10_fallback_scan (lbS ++ "\"a\": [], \"b\": [" ++ lbS
      ++ "\"expression\": \"e\"" ++ rbS ++ "], \"c\": 1" ++ rbS)
      [("a", Json.arr []), ("b", Json.arr [Json.obj [("expression", Json.str "e")]]),
        ("c", Json.num 1)] (by decide) rfl).1
    exact h.trans (by decide)⟩

end Anki
